import Mathlib

/-!
Shallow embedding of the Sentinel Orbital Defense simulation core
(`src/main.py`: `load_data` and `get_czml`), covering the conjunction
screener, the maneuver planner, the trajectory stitcher and the debris
loader.  Epochs are rationals (days, matching skyfield's `.tt` ordering
and day-difference arithmetic); positions are km and velocities km/s as
3-vectors over ℚ.  External capabilities (skyfield's `sat.at`, poliastro's
`propagate`, numpy's `linalg.norm`, `random.sample`) are parameters of the
definitions; hypotheses state only their documented contracts.

Distance comparisons: the source computes `np.linalg.norm(d) < 200.0`;
for a real Euclidean norm this holds iff `normSq d < 200²`, which is the
decidable rational form used here.
-/

namespace Sentinel

/-- 3-component cartesian vector (km or km/s), as in the numpy arrays of
`src/main.py`. -/
structure Vec3 where
  x : ℚ
  y : ℚ
  z : ℚ
deriving DecidableEq

/-- Componentwise sum, `a + b` on numpy arrays. -/
def Vec3.add (a b : Vec3) : Vec3 := ⟨a.x + b.x, a.y + b.y, a.z + b.z⟩

/-- Componentwise difference, `my_pos - deb_pos` on numpy arrays. -/
def Vec3.sub (a b : Vec3) : Vec3 := ⟨a.x - b.x, a.y - b.y, a.z - b.z⟩

/-- Scalar multiple, `c * v` on numpy arrays. -/
def Vec3.smul (c : ℚ) (a : Vec3) : Vec3 := ⟨c * a.x, c * a.y, c * a.z⟩

/-- Squared Euclidean norm; `np.linalg.norm v` squared. -/
def Vec3.normSq (a : Vec3) : ℚ := a.x ^ 2 + a.y ^ 2 + a.z ^ 2

/-- Configuration constant `DURATION_HOURS = 24` of `src/main.py`. -/
def DURATION_HOURS : ℚ := 24

/-- Configuration constant `STEP_MINUTES = 2` of `src/main.py`. -/
def STEP_MINUTES : ℚ := 2

/-- Configuration constant `COLLISION_THRESHOLD_KM = 200.0` of `src/main.py`. -/
def COLLISION_THRESHOLD_KM : ℚ := 200

/-- Configuration constant `MANEUVER_LEAD_TIME_MIN = 45` of `src/main.py`. -/
def MANEUVER_LEAD_TIME_MIN : ℚ := 45

/-- The screening loop header `range(0, len(times), 5)` strides by 5. -/
def SCREEN_STRIDE : ℕ := 5

/-- Debris population cap `1200` in `load_data`. -/
def DEBRIS_CAP : ℕ := 1200

/-- Burn magnitude `dv = 0.008` km/s (8 m/s) of `get_czml`. -/
def BURN_DV_KM_S : ℚ := 8 / 1000

/-- Number of simulation steps: `int(DURATION_HOURS * 60 / STEP_MINUTES)` = 720. -/
def simSteps : ℕ := 720

/-- The time grid `times = [start_time + i * STEP_MINUTES / 1440.0 for i in range(steps)]`,
epochs in days. -/
def timeGrid (start : ℚ) : List ℚ :=
  (List.range simSteps).map fun i => start + (i : ℚ) * (STEP_MINUTES / 1440)

/-- Indices `range(0, n, k)` followed by lookup: the stride-`k` subsample of a
list, as in the screening loop `for t_idx in range(0, len(times), 5)`. -/
def strideSample {α : Type} (xs : List α) (k : ℕ) : List α :=
  ((List.range xs.length).filter fun i => i % k = 0).filterMap fun i => xs[i]?

/-- A satellite record: NORAD catalog number (`model.satnum`) and name.  Both
tracked assets and debris objects are `EarthSatellite` values in the source. -/
structure Sat where
  satnum : ℕ
  name : String
deriving DecidableEq

/-- External ephemeris capability: skyfield's `obj.at(t)` giving
(`position.km`, `velocity.km_per_s`). -/
def Ephem : Type := Sat → ℚ → Vec3 × Vec3

/-- Osculating two-body orbit as stored by poliastro's `Orbit.from_vectors`:
the defining state vector (`orbit.r`, `orbit.v`). -/
structure OrbitModel where
  r : Vec3
  v : Vec3
deriving DecidableEq

/-- `Orbit.from_vectors(Earth, pos_vec, vel_vec, epoch)`: records the state
vector. -/
def OrbitModel.fromVectors (pos vel : Vec3) : OrbitModel := ⟨pos, vel⟩

/-- `orbit.apply_maneuver(Maneuver.impulse(dv))`: an impulsive burn leaves the
position unchanged and adds `dv` to the velocity. -/
def OrbitModel.applyImpulse (m : OrbitModel) (dv : Vec3) : OrbitModel :=
  ⟨m.r, Vec3.add m.v dv⟩

/-- External propagation capability (poliastro `propagate`), position after the
given elapsed seconds. -/
def Propagator : Type := OrbitModel → ℚ → Vec3

/-- The inner-loop test `dist < COLLISION_THRESHOLD_KM` of the screener, with
`dist = np.linalg.norm(my_pos - deb_pos)`, in squared form. -/
def hitB (ephem : Ephem) (myPos : Vec3) (t : ℚ) (deb : Sat) : Bool :=
  decide (Vec3.normSq (Vec3.sub myPos (ephem deb t).1) < COLLISION_THRESHOLD_KM ^ 2)

/-- The inner debris loop of the screener: first debris object (in list order)
within threshold of `myPos` at epoch `t`; the loop breaks on the first hit. -/
def findDebris (ephem : Ephem) (myPos : Vec3) (t : ℚ) (debris : List Sat) : Option Sat :=
  debris.find? (hitB ephem myPos t)

/-- The outer screening loop over the coarse epochs: at each epoch fetch the
asset position once, scan the debris population, and stop both loops at the
first hit, yielding `detected_risk = (time, debris)`. -/
def screenAsset (ephem : Ephem) (sat : Sat) (debris : List Sat) :
    List ℚ → Option (ℚ × Sat)
  | [] => none
  | t :: ts =>
    match findDebris ephem (ephem sat t).1 t debris with
    | some d => some (t, d)
    | none => screenAsset ephem sat debris ts

/-- The `detected_risk` dictionary: epoch, debris object and (squared) miss
distance of the first hit. -/
structure Risk where
  time : ℚ
  debris : Sat
  distSq : ℚ
deriving DecidableEq

/-- Screening result for one asset, packaged as the source's `detected_risk`
(the source stores `dist`; the squared distance is recorded here). -/
def detectRisk (ephem : Ephem) (sat : Sat) (debris : List Sat) (coarse : List ℚ) :
    Option Risk :=
  match screenAsset ephem sat debris coarse with
  | none => none
  | some (t, d) => some ⟨t, d, Vec3.normSq (Vec3.sub (ephem sat t).1 (ephem d t).1)⟩

/-- Burn epoch: `burn_time = detected_risk['time'] - MANEUVER_LEAD_TIME_MIN/1440.0`,
then `if burn_time < start_time: burn_time = start_time`. -/
def planBurnTime (startTime riskTime : ℚ) : ℚ :=
  let bt := riskTime - MANEUVER_LEAD_TIME_MIN / 1440
  if bt < startTime then startTime else bt

/-- The impulse `dv * (orbit_initial.v / v_norm)` with `dv = 0.008` km/s and
`v_norm = np.linalg.norm(orbit_initial.v)` supplied by the external norm. -/
def impulseOf (norm3 : Vec3 → ℚ) (v : Vec3) : Vec3 :=
  Vec3.smul (BURN_DV_KM_S / norm3 v) v

/-- The `asset_obj['maneuver']` dictionary: burn time, post-burn orbit, the
triggering risk, and the type tag. -/
structure Maneuver where
  time : ℚ
  orbitNew : OrbitModel
  risk : Risk
  tag : String
deriving DecidableEq

/-- Maneuver planning for a detected risk (lines 126-147 of `src/main.py`):
clamped burn time, state vector at the burn time, osculating orbit, prograde
impulse of fixed magnitude, post-burn orbit. -/
def planManeuver (norm3 : Vec3 → ℚ) (ephem : Ephem) (startTime : ℚ)
    (sat : Sat) (rk : Risk) : Maneuver :=
  let burnTime := planBurnTime startTime rk.time
  let posVec := (ephem sat burnTime).1
  let velVec := (ephem sat burnTime).2
  let orbitInitial := OrbitModel.fromVectors posVec velVec
  let impulse := impulseOf norm3 orbitInitial.v
  let orbitNew := OrbitModel.applyImpulse orbitInitial impulse
  { time := burnTime, orbitNew := orbitNew, risk := rk, tag := "PROGRADE AVOIDANCE" }

/-- One run-scoped fleet entry of `get_czml` (lines 83-90): the static
satellite plus the per-run mutable fields `maneuver` and `collisions`. -/
structure FleetEntry where
  sat : Sat
  maneuver : Option Maneuver
  collisions : List Risk
deriving DecidableEq

/-- The per-run reset (lines 83-90): a fresh fleet list with `maneuver = None`
and `collisions = []` built from the static satellites. -/
def freshFleet (staticFleet : List Sat) : List FleetEntry :=
  staticFleet.map fun s => { sat := s, maneuver := none, collisions := [] }

/-- Screening plus planning for one fleet entry: if a risk is detected the
entry gets its sole maneuver, otherwise it is unchanged. -/
def runEntry (norm3 : Vec3 → ℚ) (ephem : Ephem) (startTime : ℚ)
    (debris : List Sat) (coarse : List ℚ) (en : FleetEntry) : FleetEntry :=
  match detectRisk ephem en.sat debris coarse with
  | none => en
  | some rk => { en with maneuver := some (planManeuver norm3 ephem startTime en.sat rk) }

/-- One iteration of the fleet loop: process an entry, append it (with its
maneuver when a risk is detected), and add the debris identity to
`threat_debris_ids` exactly when the risk is detected. -/
def screenStep (norm3 : Vec3 → ℚ) (ephem : Ephem) (startTime : ℚ)
    (debris : List Sat) (coarse : List ℚ)
    (acc : List FleetEntry × Finset ℕ) (en : FleetEntry) :
    List FleetEntry × Finset ℕ :=
  match detectRisk ephem en.sat debris coarse with
  | none => (acc.1 ++ [en], acc.2)
  | some rk =>
    (acc.1 ++ [{ en with maneuver := some (planManeuver norm3 ephem startTime en.sat rk) }],
      insert rk.debris.satnum acc.2)

/-- The screening and planning pass over the whole fleet (lines 100-147):
entries are processed in order, and `threat_debris_ids.add(deb.model.satnum)`
fires exactly when a risk is detected for an asset. -/
def runFleet (norm3 : Vec3 → ℚ) (ephem : Ephem) (startTime : ℚ)
    (debris : List Sat) (coarse : List ℚ) (fleet : List FleetEntry) :
    List FleetEntry × Finset ℕ :=
  fleet.foldl (screenStep norm3 ephem startTime debris coarse) ([], ∅)

/-- The coarse screening grid: every 5th epoch of the full time grid. -/
def coarseGrid (start : ℚ) : List ℚ := strideSample (timeGrid start) SCREEN_STRIDE

/-- One sample of the active trajectory (lines 202-214): the original
ephemeris position unless a maneuver exists and `t >= maneuver['time']`, in
which case the new orbit is propagated by the elapsed seconds
`(t - maneuver['time']) * 86400`.  (CZML stores the position in metres and
keys samples by seconds past `times[0]`; both maps are injective unit
conversions and are dropped here.) -/
def activePos (prop : Propagator) (ephem : Ephem) (sat : Sat)
    (man : Option Maneuver) (t : ℚ) : Vec3 :=
  match man with
  | some m =>
    if m.time ≤ t then prop m.orbitNew ((t - m.time) * 86400) else (ephem sat t).1
  | none => (ephem sat t).1

/-- The original (un-maneuvered) trajectory samples, `pos_orig` at every epoch
of the grid (always computed; they populate `cartesian_ghost`). -/
def originalSamples (ephem : Ephem) (sat : Sat) (times : List ℚ) : List (ℚ × Vec3) :=
  times.map fun t => (t, (ephem sat t).1)

/-- The active trajectory samples, `cartesian_active`, at every epoch of the
grid. -/
def activeSamples (prop : Propagator) (ephem : Ephem) (sat : Sat)
    (man : Option Maneuver) (times : List ℚ) : List (ℚ × Vec3) :=
  times.map fun t => (t, activePos prop ephem sat man t)

/-- The ghost CZML packet (lines 271-291): availability interval from the
burn time to the last grid epoch, and position samples `cartesian_ghost`. -/
structure GhostPacket where
  availStart : ℚ
  availEnd : ℚ
  samples : List (ℚ × Vec3)
deriving DecidableEq

/-- Ghost emission: the packet exists exactly when the asset has a maneuver;
its availability starts at `maneuver['time']` and its samples are
`cartesian_ghost`, which was filled for every epoch of the full grid. -/
def ghostPacket (ephem : Ephem) (sat : Sat) (man : Option Maneuver)
    (times : List ℚ) : Option GhostPacket :=
  match man with
  | some m =>
    some { availStart := m.time, availEnd := times.getLastD 0,
           samples := originalSamples ephem sat times }
  | none => none

/-- Fallible maneuver planning: `Orbit.from_vectors` and `apply_maneuver` are
external calls that may raise; `get_czml` wraps neither in a handler, so an
error propagates. -/
def planManeuverE (fromVecE : Vec3 → Vec3 → Except String OrbitModel)
    (applyImpE : OrbitModel → Vec3 → Except String OrbitModel)
    (norm3 : Vec3 → ℚ) (ephem : Ephem) (startTime : ℚ)
    (sat : Sat) (rk : Risk) : Except String Maneuver :=
  let burnTime := planBurnTime startTime rk.time
  match fromVecE (ephem sat burnTime).1 (ephem sat burnTime).2 with
  | Except.error e => Except.error e
  | Except.ok orbitInitial =>
    match applyImpE orbitInitial (impulseOf norm3 orbitInitial.v) with
    | Except.error e => Except.error e
    | Except.ok orbitNew =>
      Except.ok { time := burnTime, orbitNew := orbitNew, risk := rk,
                  tag := "PROGRADE AVOIDANCE" }

/-- The fleet pass with fallible planning: a raised exception in orbit
construction or impulse application is caught nowhere inside `get_czml`, so
it aborts the whole run — no fleet output and no threat set are produced. -/
def runFleetE (fromVecE : Vec3 → Vec3 → Except String OrbitModel)
    (applyImpE : OrbitModel → Vec3 → Except String OrbitModel)
    (norm3 : Vec3 → ℚ) (ephem : Ephem) (startTime : ℚ)
    (debris : List Sat) (coarse : List ℚ)
    (acc : List FleetEntry × Finset ℕ) :
    List FleetEntry → Except String (List FleetEntry × Finset ℕ)
  | [] => Except.ok acc
  | en :: rest =>
    match detectRisk ephem en.sat debris coarse with
    | none => runFleetE fromVecE applyImpE norm3 ephem startTime debris coarse
        (acc.1 ++ [en], acc.2) rest
    | some rk =>
      match planManeuverE fromVecE applyImpE norm3 ephem startTime en.sat rk with
      | Except.error e => Except.error e
      | Except.ok m => runFleetE fromVecE applyImpE norm3 ephem startTime debris coarse
          (acc.1 ++ [{ en with maneuver := some m }], insert rk.debris.satnum acc.2) rest

/-- The debris branch of `load_data` (lines 60-68): concatenate the two TLE
files, cap the population by a random 1200-sample when it exceeds 1200, and
fall back to the empty list when loading raises.  `random.sample` is the
external `sample` parameter. -/
def loadDebris (sample : List Sat → ℕ → List Sat)
    (loaded : Except String (List Sat × List Sat)) : List Sat :=
  match loaded with
  | Except.error _ => []
  | Except.ok (iridium, cosmos) =>
    let realDebris := iridium ++ cosmos
    if DEBRIS_CAP < realDebris.length then sample realDebris DEBRIS_CAP else realDebris

/-! Helper lemmas shared by the claim theorems. -/

/-- Unfolding of the screener on a non-empty epoch list: first the debris scan
at the head epoch, then the remaining epochs. -/
theorem screenAsset_cons (ephem : Ephem) (sat : Sat) (debris : List Sat)
    (t : ℚ) (ts : List ℚ) :
    screenAsset ephem sat debris (t :: ts) =
      ((findDebris ephem (ephem sat t).1 t debris).map fun d => (t, d)).or
        (screenAsset ephem sat debris ts) := by
  cases h : findDebris ephem (ephem sat t).1 t debris with
  | some d => simp [screenAsset, h]
  | none => simp [screenAsset, h]

set_option maxRecDepth 10000 in
/-- Every index below `simSteps` yields its epoch in the time grid. -/
theorem timeGrid_mem (start : ℚ) (i : ℕ) (hi : i < simSteps) :
    start + (i : ℚ) * (STEP_MINUTES / 1440) ∈ timeGrid start := by
  unfold timeGrid
  exact List.mem_map_of_mem (fun i : ℕ => start + (i : ℚ) * (STEP_MINUTES / 1440))
    (List.mem_range.mpr hi)

/-- A reported conjunction epoch is one of the scanned epochs. -/
theorem screenAsset_some_mem_time (ephem : Ephem) (sat : Sat) (debris : List Sat)
    (coarse : List ℚ) (t : ℚ) (d : Sat)
    (h : screenAsset ephem sat debris coarse = some (t, d)) : t ∈ coarse := by
  induction coarse with
  | nil => simp [screenAsset] at h
  | cons t0 ts ih =>
    rw [screenAsset_cons] at h
    cases hf : findDebris ephem (ephem sat t0).1 t0 debris with
    | some d0 =>
      rw [hf, Option.map_some', Option.or_some] at h
      have ht : t0 = t := congrArg Prod.fst (Option.some.inj h)
      rw [ht]
      exact List.mem_cons_self t ts
    | none =>
      rw [hf, Option.map_none', Option.none_or] at h
      exact List.mem_cons_of_mem t0 (ih h)

/-! Concrete data for witness runs. -/

/-- Ephemeris used by concrete witness runs: every object sits at the origin
with velocity (3, 4, 0) km/s, whose Euclidean norm is 5. -/
def wEphem : Ephem := fun _ _ => (⟨0, 0, 0⟩, ⟨3, 4, 0⟩)

/-- External norm used by concrete witness runs, agreeing with the Euclidean
norm on the only velocity vector that occurs, (3, 4, 0). -/
def wNorm : Vec3 → ℚ := fun _ => 5

/-- Witness asset. -/
def wSat : Sat := ⟨1, "iss"⟩

/-- Witness debris object. -/
def wDeb : Sat := ⟨2, "deb"⟩

/-- Witness fleet entry at run start (maneuver reset to `none`). -/
def wEntry : FleetEntry := ⟨wSat, none, []⟩

/-- The risk detected in the witness run: hit at epoch 5/12 days (10 h past
start 0) at squared distance 0. -/
def wRisk : Risk := ⟨5 / 12, wDeb, 0⟩

/-- In the witness run the debris is within threshold at the sampled epoch. -/
theorem wHit : hitB wEphem ⟨0, 0, 0⟩ (5 / 12) wDeb = true := by
  norm_num [hitB, wEphem, Vec3.sub, Vec3.normSq, COLLISION_THRESHOLD_KM]

/-- Screening the witness run hits at the single sampled epoch. -/
theorem wScreen : screenAsset wEphem wSat [wDeb] [5 / 12] = some (5 / 12, wDeb) := by
  rw [screenAsset_cons]
  have hfd : findDebris wEphem (wEphem wSat (5 / 12)).1 (5 / 12) [wDeb] = some wDeb := by
    unfold findDebris
    exact List.find?_cons_of_pos _ wHit
  rw [hfd]
  rfl

/-- The detected risk of the witness run. -/
theorem wDetect : detectRisk wEphem wSat [wDeb] [5 / 12] = some wRisk := by
  unfold detectRisk
  rw [wScreen]
  norm_num [wRisk, wEphem, Vec3.sub, Vec3.normSq]

/-- Screening plus planning of the witness entry: the planned maneuver is
attached. -/
theorem wRunEntry : runEntry wNorm wEphem 0 [wDeb] [5 / 12] wEntry =
    { wEntry with maneuver := some (planManeuver wNorm wEphem 0 wSat wRisk) } := by
  unfold runEntry
  simp only [wEntry]
  rw [wDetect]

/-! Claim theorems. -/

/-- C1: the screener reports a conjunction iff some sampled epoch has a debris
object at Euclidean distance below the threshold, and the reported pair is the
first hit of the time-major, debris-iteration-order scan (`List.find?` over
the flattened (epoch, debris) sequence), so each asset carries at most one
conjunction (an `Option`) and the result need not be the globally closest
approach. -/
theorem screener_first_hit (ephem : Ephem) (sat : Sat) (debris : List Sat)
    (coarse : List ℚ) :
    screenAsset ephem sat debris coarse =
      (coarse.flatMap fun t => debris.map fun d => (t, d)).find?
        (fun p => hitB ephem (ephem sat p.1).1 p.1 p.2)
    ∧ ((screenAsset ephem sat debris coarse).isSome ↔
        ∃ t ∈ coarse, ∃ d ∈ debris,
          Vec3.normSq (Vec3.sub (ephem sat t).1 (ephem d t).1) <
            COLLISION_THRESHOLD_KM ^ 2) := by
  have hmain : screenAsset ephem sat debris coarse =
      (coarse.flatMap fun t => debris.map fun d => (t, d)).find?
        (fun p => hitB ephem (ephem sat p.1).1 p.1 p.2) := by
    induction coarse with
    | nil => rfl
    | cons t ts ih =>
      rw [screenAsset_cons, List.flatMap_cons, List.find?_append, List.find?_map, ih]
      rfl
  refine ⟨hmain, ?_⟩
  rw [hmain, List.find?_isSome]
  constructor
  · rintro ⟨⟨t1, d1⟩, hmem, hp⟩
    rw [List.mem_flatMap] at hmem
    obtain ⟨t2, ht2, hmem2⟩ := hmem
    rw [List.mem_map] at hmem2
    obtain ⟨d2, hd2, heq⟩ := hmem2
    have ht : t2 = t1 := congrArg Prod.fst heq
    have hd : d2 = d1 := congrArg Prod.snd heq
    subst ht
    subst hd
    refine ⟨t2, ht2, d2, hd2, ?_⟩
    simpa [hitB] using hp
  · rintro ⟨t1, ht1, d1, hd1, hlt⟩
    refine ⟨(t1, d1), ?_, ?_⟩
    · rw [List.mem_flatMap]
      exact ⟨t1, ht1, List.mem_map.mpr ⟨d1, hd1, rfl⟩⟩
    · simpa [hitB] using hlt

/-- The clamped burn time is exactly the max of the simulation start and the
conjunction epoch minus the lead time. -/
theorem planBurnTime_eq_max (s rt : ℚ) :
    planBurnTime s rt = max s (rt - MANEUVER_LEAD_TIME_MIN / 1440) := by
  unfold planBurnTime
  rcases lt_or_le (rt - MANEUVER_LEAD_TIME_MIN / 1440) s with h | h
  · simp only [if_pos h]
    exact (max_eq_left (le_of_lt h)).symm
  · simp only [if_neg (not_lt.mpr h)]
    exact (max_eq_right h).symm

/-- C2: for every asset whose run entry carries a maneuver, the burn epoch is
`max(simulationStart, conjunctionEpoch - 45 min)`, hence lies between the
simulation start and the conjunction epoch.  The scanned epochs are assumed
not to precede the start, as holds for every subsample of the time grid. -/
theorem burn_epoch_clamped (norm3 : Vec3 → ℚ) (ephem : Ephem) (startTime : ℚ)
    (debris : List Sat) (coarse : List ℚ) (en : FleetEntry) (m : Maneuver)
    (hfresh : en.maneuver = none)
    (hc : ∀ t ∈ coarse, startTime ≤ t)
    (hm : (runEntry norm3 ephem startTime debris coarse en).maneuver = some m) :
    m.time = max startTime (m.risk.time - MANEUVER_LEAD_TIME_MIN / 1440)
    ∧ startTime ≤ m.time ∧ m.time ≤ m.risk.time := by
  unfold runEntry at hm
  cases hd : detectRisk ephem en.sat debris coarse with
  | none =>
    rw [hd] at hm
    rw [hfresh] at hm
    exact absurd hm (by simp)
  | some rk =>
    rw [hd] at hm
    simp only [Option.some.injEq] at hm
    have hmt : m.time = planBurnTime startTime rk.time := by rw [← hm]; rfl
    have hmr : m.risk = rk := by rw [← hm]; rfl
    have hrt : startTime ≤ rk.time := by
      unfold detectRisk at hd
      cases hs : screenAsset ephem en.sat debris coarse with
      | none => rw [hs] at hd; exact absurd hd (by simp)
      | some p =>
        rw [hs] at hd
        simp only [Option.some.injEq] at hd
        have : rk.time = p.1 := by rw [← hd]
        rw [this]
        exact hc p.1 (screenAsset_some_mem_time ephem en.sat debris coarse p.1 p.2
          (by rw [hs]))
    have hlead : (0 : ℚ) ≤ MANEUVER_LEAD_TIME_MIN / 1440 := by
      norm_num [MANEUVER_LEAD_TIME_MIN]
    refine ⟨by rw [hmt, hmr, planBurnTime_eq_max], ?_, ?_⟩
    · rw [hmt, planBurnTime_eq_max]
      exact le_max_left _ _
    · rw [hmt, hmr, planBurnTime_eq_max]
      exact max_le hrt (by linarith)

/-- Witness for C2: a concrete run with a conjunction detected at epoch
start + 10 h (start = 0, epoch 600/1440 days) yields a burn epoch of
exactly start + 9 h 15 m (555/1440 days), within the required bounds. -/
theorem burn_epoch_clamped_witness :
    (runEntry wNorm wEphem 0 [wDeb] [(5 : ℚ) / 12] wEntry).maneuver
        = some (planManeuver wNorm wEphem 0 wSat wRisk)
    ∧ (planManeuver wNorm wEphem 0 wSat wRisk).time
        = max 0 ((planManeuver wNorm wEphem 0 wSat wRisk).risk.time
            - MANEUVER_LEAD_TIME_MIN / 1440)
    ∧ 0 ≤ (planManeuver wNorm wEphem 0 wSat wRisk).time
    ∧ (planManeuver wNorm wEphem 0 wSat wRisk).time
        ≤ (planManeuver wNorm wEphem 0 wSat wRisk).risk.time
    ∧ (planManeuver wNorm wEphem 0 wSat wRisk).risk.time = 600 / 1440
    ∧ (planManeuver wNorm wEphem 0 wSat wRisk).time = 555 / 1440 := by
  have hm : (runEntry wNorm wEphem 0 [wDeb] [(5 : ℚ) / 12] wEntry).maneuver
      = some (planManeuver wNorm wEphem 0 wSat wRisk) := by
    rw [wRunEntry]
  have h := burn_epoch_clamped wNorm wEphem 0 [wDeb] [(5 : ℚ) / 12] wEntry
      (planManeuver wNorm wEphem 0 wSat wRisk) rfl
      (by intro t ht; rw [List.mem_singleton] at ht; rw [ht]; norm_num) hm
  refine ⟨hm, h.1, h.2.1, h.2.2, ?_, ?_⟩
  · norm_num [planManeuver, wRisk]
  · norm_num [planManeuver, planBurnTime, wRisk, MANEUVER_LEAD_TIME_MIN]

/-- The maneuver planned in the concrete witness run. -/
def wMan : Maneuver := planManeuver wNorm wEphem 0 wSat wRisk

/-- C3: for every epoch the active trajectory sample is the original
ephemeris sample when there is no maneuver or the epoch precedes the burn
time, and otherwise is the new orbit propagated by the elapsed seconds
`(t - burnEpoch) * 86400`; for a maneuver planned from a detected conjunction
the active and original positions also agree at the burn epoch itself,
because the impulse changes only the velocity and propagating by zero elapsed
time returns the burn state (the stated contract of the external
propagation), so position is continuous up to and at the burn epoch. -/
theorem active_trajectory_stitching (prop : Propagator) (norm3 : Vec3 → ℚ)
    (ephem : Ephem) (startTime : ℚ) (sat : Sat) (rk : Risk) (t : ℚ)
    (m : Maneuver) (h0 : ∀ mo : OrbitModel, prop mo 0 = mo.r) :
    activePos prop ephem sat none t = (ephem sat t).1
    ∧ (t < m.time → activePos prop ephem sat (some m) t = (ephem sat t).1)
    ∧ (m.time ≤ t →
        activePos prop ephem sat (some m) t = prop m.orbitNew ((t - m.time) * 86400))
    ∧ (m = planManeuver norm3 ephem startTime sat rk →
        activePos prop ephem sat (some m) m.time = (ephem sat m.time).1) := by
  refine ⟨rfl, ?_, ?_, ?_⟩
  · intro hlt
    simp only [activePos]
    rw [if_neg (not_le.mpr hlt)]
  · intro hle
    simp only [activePos]
    rw [if_pos hle]
  · intro hplan
    simp only [activePos]
    rw [if_pos le_rfl, sub_self, zero_mul, h0]
    rw [hplan]
    rfl

/-- Witness for C3: in the concrete witness run (burn epoch 37/96), the
active sample equals the original sample with no maneuver, and before the
burn; after the burn it is the propagated new orbit; and at the burn epoch
itself active and original positions coincide. -/
theorem active_trajectory_stitching_witness :
    activePos (fun mo _ => mo.r) wEphem wSat none (1 / 4) = (wEphem wSat (1 / 4)).1
    ∧ activePos (fun mo _ => mo.r) wEphem wSat (some wMan) (1 / 4)
        = (wEphem wSat (1 / 4)).1
    ∧ activePos (fun mo _ => mo.r) wEphem wSat (some wMan) (1 / 2)
        = wMan.orbitNew.r
    ∧ activePos (fun mo _ => mo.r) wEphem wSat (some wMan) wMan.time
        = (wEphem wSat wMan.time).1 := by
  have htime : wMan.time = 37 / 96 := by
    norm_num [wMan, planManeuver, planBurnTime, wRisk, MANEUVER_LEAD_TIME_MIN]
  have h1 := active_trajectory_stitching (fun mo _ => mo.r) wNorm wEphem 0 wSat wRisk
      (1 / 4) wMan (fun mo => rfl)
  have h2 := active_trajectory_stitching (fun mo _ => mo.r) wNorm wEphem 0 wSat wRisk
      (1 / 2) wMan (fun mo => rfl)
  exact ⟨h1.1, h1.2.1 (by rw [htime]; norm_num),
    h2.2.2.1 (by rw [htime]; norm_num), h2.2.2.2 rfl⟩

/-- C4 evidence: with a conjunction detected for the asset and
`Orbit.from_vectors` raising, the exception is caught nowhere in `get_czml`,
so the whole run aborts: no fleet output and no threat set are produced, the
asset does not fall back to its nominal trajectory, and the detected
conjunction is reported nowhere. -/
theorem planning_failure_aborts_run :
    runFleetE (fun _ _ => Except.error "orbit construction failed")
        (fun om _ => Except.ok om) wNorm wEphem 0 [wDeb] [5 / 12] ([], ∅) [wEntry]
      = Except.error "orbit construction failed" := by
  unfold runFleetE
  simp only [wEntry]
  rw [wDetect]
  rfl

/-- C5: an asset with no detected conjunction gets no maneuver, its active
trajectory equals its original trajectory at every epoch, and no ghost
packet is emitted for it. -/
theorem nominal_asset_identity (norm3 : Vec3 → ℚ) (prop : Propagator)
    (ephem : Ephem) (startTime : ℚ) (debris : List Sat) (coarse : List ℚ)
    (s : Sat) (t : ℚ)
    (hn : detectRisk ephem s debris coarse = none) :
    (runEntry norm3 ephem startTime debris coarse ⟨s, none, []⟩).maneuver = none
    ∧ activePos prop ephem s
        (runEntry norm3 ephem startTime debris coarse ⟨s, none, []⟩).maneuver t
      = (ephem s t).1
    ∧ ghostPacket ephem s
        (runEntry norm3 ephem startTime debris coarse ⟨s, none, []⟩).maneuver
        (timeGrid startTime) = none := by
  have hman : (runEntry norm3 ephem startTime debris coarse ⟨s, none, []⟩).maneuver
      = none := by
    simp only [runEntry, hn]
  refine ⟨hman, ?_, ?_⟩
  · rw [hman]
    rfl
  · rw [hman]
    rfl

/-- Witness for C5: with an empty debris population nothing is detected for
the witness asset; it keeps no maneuver, its active sample at epoch 0 is the
original one, and no ghost packet exists. -/
theorem nominal_asset_identity_witness :
    (runEntry wNorm wEphem 0 [] [5 / 12] ⟨wSat, none, []⟩).maneuver = none
    ∧ activePos (fun mo _ => mo.r) wEphem wSat
        (runEntry wNorm wEphem 0 [] [5 / 12] ⟨wSat, none, []⟩).maneuver 0
      = (wEphem wSat 0).1
    ∧ ghostPacket wEphem wSat
        (runEntry wNorm wEphem 0 [] [5 / 12] ⟨wSat, none, []⟩).maneuver
        (timeGrid 0) = none :=
  nominal_asset_identity wNorm (fun mo _ => mo.r) wEphem 0 [] [5 / 12] wSat 0 rfl

/-- Membership in the threat set accumulated by the fleet fold, for an
arbitrary accumulator. -/
theorem foldl_screenStep_mem (norm3 : Vec3 → ℚ) (ephem : Ephem) (startTime : ℚ)
    (debris : List Sat) (coarse : List ℚ) (fleet : List FleetEntry)
    (acc : List FleetEntry × Finset ℕ) (n : ℕ) :
    n ∈ (fleet.foldl (screenStep norm3 ephem startTime debris coarse) acc).2 ↔
      n ∈ acc.2 ∨ ∃ en ∈ fleet, ∃ rk : Risk,
        detectRisk ephem en.sat debris coarse = some rk ∧ rk.debris.satnum = n := by
  induction fleet generalizing acc with
  | nil => simp
  | cons e es ih =>
    rw [List.foldl_cons, ih]
    cases hd : detectRisk ephem e.sat debris coarse with
    | none =>
      simp only [screenStep, hd, List.mem_cons]
      constructor
      · rintro (h | ⟨en, hen, rk, hrk, hn⟩)
        · exact Or.inl h
        · exact Or.inr ⟨en, Or.inr hen, rk, hrk, hn⟩
      · rintro (h | ⟨en, hen | hen, rk, hrk, hn⟩)
        · exact Or.inl h
        · rw [hen, hd] at hrk
          cases hrk
        · exact Or.inr ⟨en, hen, rk, hrk, hn⟩
    | some rk0 =>
      simp only [screenStep, hd, Finset.mem_insert, List.mem_cons]
      constructor
      · rintro ((h | h) | ⟨en, hen, rk, hrk, hn⟩)
        · exact Or.inr ⟨e, Or.inl rfl, rk0, hd, h.symm⟩
        · exact Or.inl h
        · exact Or.inr ⟨en, Or.inr hen, rk, hrk, hn⟩
      · rintro (h | ⟨en, hen | hen, rk, hrk, hn⟩)
        · exact Or.inl (Or.inr h)
        · rw [hen, hd] at hrk
          refine Or.inl (Or.inl ?_)
          rw [← hn, Option.some.inj hrk]
        · exact Or.inr ⟨en, hen, rk, hrk, hn⟩

/-- C6: the threat-debris identity set after the fleet pass is exactly the
union over the assets of the debris identities appearing in their detected
conjunctions: an identity is in the set iff some fleet entry's detected risk
names it; distance checks that produced no conjunction contribute nothing. -/
theorem threat_set_exact_union (norm3 : Vec3 → ℚ) (ephem : Ephem)
    (startTime : ℚ) (debris : List Sat) (coarse : List ℚ)
    (fleet : List FleetEntry) (n : ℕ) :
    n ∈ (runFleet norm3 ephem startTime debris coarse fleet).2 ↔
      ∃ en ∈ fleet, ∃ rk : Risk,
        detectRisk ephem en.sat debris coarse = some rk ∧ rk.debris.satnum = n := by
  unfold runFleet
  rw [foldl_screenStep_mem]
  simp

/-- Squared norm of a scalar multiple. -/
theorem normSq_smul (c : ℚ) (v : Vec3) :
    Vec3.normSq (Vec3.smul c v) = c ^ 2 * Vec3.normSq v := by
  unfold Vec3.normSq Vec3.smul
  ring

/-- C7: the planned maneuver applies a single impulsive delta-v of fixed
magnitude 0.008 km/s (8 m/s) directed along the unit velocity vector of the
osculating orbit at the burn epoch: the new orbit keeps the burn position,
its velocity is the old one plus the impulse, the impulse is a positive
scalar multiple of the velocity (prograde), and its squared Euclidean norm is
exactly (0.008)².  The external norm is assumed to agree with the Euclidean
norm at the one velocity vector involved, and that vector to be nonzero. -/
theorem prograde_fixed_impulse (norm3 : Vec3 → ℚ) (ephem : Ephem)
    (startTime : ℚ) (s : Sat) (rk : Risk)
    (hv : norm3 (ephem s (planBurnTime startTime rk.time)).2 ^ 2
        = Vec3.normSq (ephem s (planBurnTime startTime rk.time)).2)
    (hpos : 0 < norm3 (ephem s (planBurnTime startTime rk.time)).2) :
    (planManeuver norm3 ephem startTime s rk).orbitNew.r
        = (ephem s (planBurnTime startTime rk.time)).1
    ∧ (planManeuver norm3 ephem startTime s rk).orbitNew.v
        = Vec3.add (ephem s (planBurnTime startTime rk.time)).2
            (impulseOf norm3 (ephem s (planBurnTime startTime rk.time)).2)
    ∧ impulseOf norm3 (ephem s (planBurnTime startTime rk.time)).2
        = Vec3.smul
            (BURN_DV_KM_S / norm3 (ephem s (planBurnTime startTime rk.time)).2)
            (ephem s (planBurnTime startTime rk.time)).2
    ∧ 0 < BURN_DV_KM_S / norm3 (ephem s (planBurnTime startTime rk.time)).2
    ∧ Vec3.normSq (impulseOf norm3 (ephem s (planBurnTime startTime rk.time)).2)
        = BURN_DV_KM_S ^ 2 := by
  have hne : norm3 (ephem s (planBurnTime startTime rk.time)).2 ≠ 0 := ne_of_gt hpos
  have hdv : (0 : ℚ) < BURN_DV_KM_S := by norm_num [BURN_DV_KM_S]
  refine ⟨rfl, rfl, rfl, div_pos hdv hpos, ?_⟩
  unfold impulseOf
  rw [normSq_smul, ← hv, div_pow, div_mul_cancel₀]
  exact pow_ne_zero 2 hne

/-- Witness for C7: in the concrete witness run the burn-epoch velocity is
(3, 4, 0) with norm 5; the planned impulse is (0.008/5)·(3, 4, 0), a positive
prograde multiple of squared magnitude 0.008². -/
theorem prograde_fixed_impulse_witness :
    (planManeuver wNorm wEphem 0 wSat wRisk).orbitNew.r
        = (wEphem wSat (planBurnTime 0 wRisk.time)).1
    ∧ (planManeuver wNorm wEphem 0 wSat wRisk).orbitNew.v
        = Vec3.add (wEphem wSat (planBurnTime 0 wRisk.time)).2
            (impulseOf wNorm (wEphem wSat (planBurnTime 0 wRisk.time)).2)
    ∧ impulseOf wNorm (wEphem wSat (planBurnTime 0 wRisk.time)).2
        = Vec3.smul (BURN_DV_KM_S / wNorm (wEphem wSat (planBurnTime 0 wRisk.time)).2)
            (wEphem wSat (planBurnTime 0 wRisk.time)).2
    ∧ 0 < BURN_DV_KM_S / wNorm (wEphem wSat (planBurnTime 0 wRisk.time)).2
    ∧ Vec3.normSq (impulseOf wNorm (wEphem wSat (planBurnTime 0 wRisk.time)).2)
        = BURN_DV_KM_S ^ 2 :=
  prograde_fixed_impulse wNorm wEphem 0 wSat wRisk
    (by norm_num [wNorm, wEphem, Vec3.normSq])
    (by norm_num [wNorm])

/-- C8 counterexample: in the concrete maneuvered witness run (burn epoch
37/96 days past start 0) the emitted ghost packet contains the sample at
epoch 0, strictly before the burn, so its samples are not restricted to the
epochs at or after the burn epoch. -/
theorem ghost_sample_before_burn :
    (runEntry wNorm wEphem 0 [wDeb] [5 / 12] wEntry).maneuver = some wMan
    ∧ ghostPacket wEphem wSat (some wMan) (timeGrid 0)
        = some ⟨wMan.time, (timeGrid 0).getLastD 0,
            originalSamples wEphem wSat (timeGrid 0)⟩
    ∧ ((0 : ℚ), (⟨0, 0, 0⟩ : Vec3)) ∈ originalSamples wEphem wSat (timeGrid 0)
    ∧ wMan.time = 37 / 96
    ∧ (0 : ℚ) < 37 / 96 := by
  have h1 : (runEntry wNorm wEphem 0 [wDeb] [5 / 12] wEntry).maneuver = some wMan := by
    rw [wRunEntry]; rfl
  have h2 : ghostPacket wEphem wSat (some wMan) (timeGrid 0)
      = some ⟨wMan.time, (timeGrid 0).getLastD 0,
          originalSamples wEphem wSat (timeGrid 0)⟩ := rfl
  have hg : (0 : ℚ) ∈ timeGrid 0 := by
    have h := timeGrid_mem 0 0 (by norm_num [simSteps])
    simpa using h
  have h3 : ((0 : ℚ), (⟨0, 0, 0⟩ : Vec3)) ∈ originalSamples wEphem wSat (timeGrid 0) := by
    unfold originalSamples
    exact List.mem_map_of_mem (fun t : ℚ => (t, (wEphem wSat t).1)) hg
  have h4 : wMan.time = 37 / 96 := by
    norm_num [wMan, planManeuver, planBurnTime, wRisk, MANEUVER_LEAD_TIME_MIN]
  exact ⟨h1, h2, h3, h4, by norm_num⟩

/-- C8 amended: for every maneuvered asset a ghost packet is emitted whose
availability interval starts at the burn epoch (ending at the last grid
epoch) and whose samples are the original ephemeris positions at every epoch
of the full time grid — the availability window, not the sample list,
restricts the display to epochs at or after the burn; no packet is emitted
without a maneuver. -/
theorem ghost_packet_full_grid (ephem : Ephem) (s : Sat) (m : Maneuver)
    (times : List ℚ) :
    ghostPacket ephem s (some m) times
      = some ⟨m.time, times.getLastD 0, originalSamples ephem s times⟩
    ∧ (originalSamples ephem s times).map Prod.fst = times
    ∧ ghostPacket ephem s none times = none := by
  refine ⟨rfl, ?_, rfl⟩
  unfold originalSamples
  rw [List.map_map]
  have hcomp : (Prod.fst ∘ fun t : ℚ => (t, (ephem s t).1)) = fun t => t := rfl
  rw [hcomp]
  exact List.map_id' times

/-- C9: screening and planning depend only on the immutable inputs.  The
run-start reset (fresh entries with `maneuver = None`, `collisions = []`)
erases whatever per-run state rode on the previous fleet list, so two runs
over the same static satellites, debris population (same order), grid and
ephemeris produce identical conjunctions, maneuvers and threat sets. -/
theorem run_reset_deterministic (norm3 : Vec3 → ℚ) (ephem : Ephem)
    (startTime : ℚ) (debris : List Sat) (coarse : List ℚ)
    (prev1 prev2 : List FleetEntry)
    (h : prev1.map FleetEntry.sat = prev2.map FleetEntry.sat) :
    runFleet norm3 ephem startTime debris coarse
        (prev1.map fun en => ⟨en.sat, none, []⟩)
      = runFleet norm3 ephem startTime debris coarse
        (prev2.map fun en => ⟨en.sat, none, []⟩) := by
  have h1 : (prev1.map fun en => (⟨en.sat, none, []⟩ : FleetEntry))
      = freshFleet (prev1.map FleetEntry.sat) := by
    unfold freshFleet
    rw [List.map_map]
    rfl
  have h2 : (prev2.map fun en => (⟨en.sat, none, []⟩ : FleetEntry))
      = freshFleet (prev2.map FleetEntry.sat) := by
    unfold freshFleet
    rw [List.map_map]
    rfl
  rw [h1, h2, h]

/-- Witness for C9: a fleet list still carrying a stale maneuver from an
earlier run and a clean one with the same static satellite produce, after the
run-start reset, identical screening and planning results. -/
theorem run_reset_deterministic_witness :
    runFleet wNorm wEphem 0 [wDeb] [5 / 12]
        (([⟨wSat, some wMan, [wRisk]⟩] : List FleetEntry).map fun en => ⟨en.sat, none, []⟩)
      = runFleet wNorm wEphem 0 [wDeb] [5 / 12]
        (([wEntry] : List FleetEntry).map fun en => ⟨en.sat, none, []⟩) :=
  run_reset_deterministic wNorm wEphem 0 [wDeb] [5 / 12]
    [⟨wSat, some wMan, [wRisk]⟩] [wEntry] rfl

/-- C10: the debris population of a run never exceeds 1200 objects: a failed
load falls back to the empty list, and a load of more than 1200 satellites is
replaced by a `random.sample` of exactly 1200 (the external sampler returns
as many elements as requested). -/
theorem debris_population_capped (sample : List Sat → ℕ → List Sat)
    (loaded : Except String (List Sat × List Sat))
    (ir co : List Sat) (e : String)
    (hs : ∀ xs : List Sat, ∀ k : ℕ, k ≤ xs.length → (sample xs k).length = k)
    (hlen : DEBRIS_CAP < (ir ++ co).length) :
    (loadDebris sample loaded).length ≤ DEBRIS_CAP
    ∧ loadDebris sample (Except.error e) = []
    ∧ loadDebris sample (Except.ok (ir, co)) = sample (ir ++ co) DEBRIS_CAP := by
  refine ⟨?_, rfl, ?_⟩
  · cases loaded with
    | error e2 => simp [loadDebris]
    | ok pr =>
      obtain ⟨a, b⟩ := pr
      simp only [loadDebris]
      by_cases hab : DEBRIS_CAP < (a ++ b).length
      · rw [if_pos hab, hs _ _ (le_of_lt hab)]
      · rw [if_neg hab]
        exact le_of_not_lt hab
  · simp only [loadDebris]
    rw [if_pos hlen]

/-- Witness for C10: loading 1201 debris objects yields the 1200-element
sample (here: `take 1200`), a failed load yields the empty list, and the
population length stays at most 1200. -/
theorem debris_population_capped_witness :
    (loadDebris (fun xs k => xs.take k)
        (Except.ok (List.replicate 1201 wDeb, []))).length ≤ DEBRIS_CAP
    ∧ loadDebris (fun xs k => xs.take k) (Except.error "load failed") = []
    ∧ loadDebris (fun xs k => xs.take k) (Except.ok (List.replicate 1201 wDeb, []))
        = (List.replicate 1201 wDeb ++ []).take DEBRIS_CAP :=
  debris_population_capped (fun xs k => xs.take k)
    (Except.ok (List.replicate 1201 wDeb, []))
    (List.replicate 1201 wDeb) [] "load failed"
    (fun xs k h => by rw [List.length_take]; exact Nat.min_eq_left h)
    (by rw [List.append_nil, List.length_replicate]; norm_num [DEBRIS_CAP])

end Sentinel
